import Mathlib

/-!
Verification of the news-pipeline program (news_pipeline.py): a shallow
embedding of its data model and operations, followed by theorems settling
the specification claims.

Modelling conventions:
- An Article mirrors the dictionaries built by the scrapers, with keys
  url, title, published_at, source.
- Python datetime values are modelled by the DateTime structure.  The
  strftime call with format "%Y-%m-%d %H:%M:%S" is modelled by
  strftimeNormalized; since Python datetime fields are range-validated
  (year 1..9999, month 1..12, day 1..31, hour < 24, minute < 60,
  second < 60), digit extraction reproduces strftime exactly on every
  representable datetime.
- Network fetches, the two external date parsers (datetime.fromisoformat
  and datetime.strptime with format "%B %d, %Y"), and the two clocks
  (datetime.now(timezone.utc) and datetime.now()) are inputs: the
  extractors are functions of the fetch outcome, the parser, and the
  clock reading.
- The SQLite table is a list of rows plus the autoincrement counter; the
  INSERT OR IGNORE statement is insertOrIgnore.
- The CSV file is an optional (header flag, row list) pair; None means
  the file does not exist.  Opening with mode "w" replaces the content.
- Exceptions that the Python code does not catch are modelled with
  Except: sqlite3.connect and the statements outside any try block can
  fail, controlled by boolean oracles in the pipeline environment.
-/

namespace NewsPipeline

/-- Article record as built by both scrapers: keys url, title,
published_at, source. -/
structure Article where
  url : String
  title : String
  published_at : String
  source : String
deriving Repr, DecidableEq

/-- Python datetime value (fields as produced by the library parsers and
clocks; Python validates year 1..9999, month 1..12, and so on). -/
structure DateTime where
  year : Nat
  month : Nat
  day : Nat
  hour : Nat
  minute : Nat
  second : Nat
deriving Repr, DecidableEq

/-- Character list written by strftime with format "%Y-%m-%d %H:%M:%S":
zero-padded 4-digit year and 2-digit remaining fields. -/
def strftimeChars (d : DateTime) : List Char :=
  [Nat.digitChar (d.year / 1000 % 10), Nat.digitChar (d.year / 100 % 10),
   Nat.digitChar (d.year / 10 % 10), Nat.digitChar (d.year % 10), '-',
   Nat.digitChar (d.month / 10 % 10), Nat.digitChar (d.month % 10), '-',
   Nat.digitChar (d.day / 10 % 10), Nat.digitChar (d.day % 10), ' ',
   Nat.digitChar (d.hour / 10 % 10), Nat.digitChar (d.hour % 10), ':',
   Nat.digitChar (d.minute / 10 % 10), Nat.digitChar (d.minute % 10), ':',
   Nat.digitChar (d.second / 10 % 10), Nat.digitChar (d.second % 10)]

/-- Model of published_at.strftime("%Y-%m-%d %H:%M:%S"). -/
def strftimeNormalized (d : DateTime) : String :=
  String.mk (strftimeChars d)

/-- Decides whether a string has the normalized timestamp shape
YYYY-MM-DD HH:MM:SS (digits in the digit positions, the three separator
characters in theirs). -/
def isNormalizedTimestamp (s : String) : Bool :=
  match s.toList with
  | [y1, y2, y3, y4, c1, m1, m2, c2, d1, d2, c3, h1, h2, c4, n1, n2, c5, s1, s2] =>
    y1.isDigit && y2.isDigit && y3.isDigit && y4.isDigit && (c1 == '-') &&
    m1.isDigit && m2.isDigit && (c2 == '-') &&
    d1.isDigit && d2.isDigit && (c3 == ' ') &&
    h1.isDigit && h2.isDigit && (c4 == ':') &&
    n1.isDigit && n2.isDigit && (c5 == ':') &&
    s1.isDigit && s2.isDigit
  | _ => false

/-- Numeric value of a digit character. -/
def charVal (c : Char) : Nat := c.toNat - 48

/-- Model of the SQLite datetime() conversion applied to a stored
published_at value: a string of the normalized shape parses to its
timestamp, any other string yields NULL (here: none).  Field-range
validation is elided since every value written by this program is a
strftime image. -/
def parseTimestamp (s : String) : Option DateTime :=
  match s.toList with
  | [y1, y2, y3, y4, c1, m1, m2, c2, d1, d2, c3, h1, h2, c4, n1, n2, c5, s1, s2] =>
    if y1.isDigit && y2.isDigit && y3.isDigit && y4.isDigit && (c1 == '-') &&
       m1.isDigit && m2.isDigit && (c2 == '-') &&
       d1.isDigit && d2.isDigit && (c3 == ' ') &&
       h1.isDigit && h2.isDigit && (c4 == ':') &&
       n1.isDigit && n2.isDigit && (c5 == ':') &&
       s1.isDigit && s2.isDigit then
      some ⟨charVal y1 * 1000 + charVal y2 * 100 + charVal y3 * 10 + charVal y4,
            charVal m1 * 10 + charVal m2,
            charVal d1 * 10 + charVal d2,
            charVal h1 * 10 + charVal h2,
            charVal n1 * 10 + charVal n2,
            charVal s1 * 10 + charVal s2⟩
    else none
  | _ => none

/-- Chronological key of a timestamp: lexicographic on
(year, month, day, hour, minute, second), order-faithfully encoded as a
number (every field below year is a 2-digit value). -/
def DateTime.key (d : DateTime) : Nat :=
  ((((d.year * 100 + d.month) * 100 + d.day) * 100 + d.hour) * 100 + d.minute) * 100
    + d.second

/- ---------- Scraper: Skift ---------- -/

/-- Outcome classes of the requests.get call plus raise_for_status:
caught by the outer except of each scraper. -/
inductive FetchErr where
  | network
  | timeout
  | httpStatus (code : Nat)
deriving Repr, DecidableEq

/-- Relevant content of one Skift article block: the first anchor with an
href (item.find, href=True), the text of the nearest h2/h3 heading, and
the datetime attribute of the time element.  timeDatetime is none both
when the time tag is absent and when it lacks the attribute; the code
treats the two identically. -/
structure SkiftBlock where
  linkHref : Option String
  heading : Option String
  timeDatetime : Option String
deriving Repr, DecidableEq

/-- Datetime a Skift record carries: the parsed datetime attribute when
present and parseable by fromisoformat, else the UTC clock reading (both
the missing-attribute path and the except path of the code). -/
def skiftDate (fromiso : String → Option DateTime) (nowUtc : DateTime)
    (b : SkiftBlock) : DateTime :=
  match b.timeDatetime with
  | some s => (fromiso s).getD nowUtc
  | none => nowUtc

/-- Per-block body of the Skift loop: skip when link or heading is
missing, otherwise build the record; published_at is the parsed datetime
attribute when fromisoformat succeeds, else the UTC clock reading. -/
def processSkiftItem (fromiso : String → Option DateTime) (nowUtc : DateTime)
    (b : SkiftBlock) : Option Article :=
  match b.linkHref, b.heading with
  | some link, some title =>
    some ⟨link, title, strftimeNormalized (skiftDate fromiso nowUtc b), "Skift"⟩
  | _, _ => none

/-- Model of scrape_skift: a failed fetch is caught and yields the empty
list; a successful fetch processes every selected article block, skipped
blocks contributing nothing. -/
def scrape_skift (fetch : Except FetchErr (List SkiftBlock))
    (fromiso : String → Option DateTime) (nowUtc : DateTime) : List Article :=
  match fetch with
  | .error _ => []
  | .ok blocks => blocks.filterMap (processSkiftItem fromiso nowUtc)

/- ---------- Scraper: PhocusWire ---------- -/

/-- Relevant content of the a.title anchor of a PhocusWire item: href is
none when the attribute is absent (tag.get returns None), text is the
anchor text. -/
structure PhocusAnchor where
  href : Option String
  text : String
deriving Repr, DecidableEq

/-- Relevant content of one PhocusWire list item: the a.title anchor
(none when select_one finds nothing) and the text of the .author element
(none when absent). -/
structure PhocusBlock where
  titleAnchor : Option PhocusAnchor
  authorText : Option String
deriving Repr, DecidableEq

/-- Raw date token of a PhocusWire block: the text after the last "|" of
the .author element, stripped, or "Unknown" when the element is absent. -/
def phocusRawDate (b : PhocusBlock) : String :=
  match b.authorText with
  | some t => ((t.splitOn "|").getLastD "").trim
  | none => "Unknown"

/-- Datetime a PhocusWire record carries: the strptime parse of the raw
date token when it succeeds, else the local clock reading (the
ValueError path of the code). -/
def phocusDate (strptimeBdY : String → Option DateTime) (nowLocal : DateTime)
    (b : PhocusBlock) : DateTime :=
  (strptimeBdY (phocusRawDate b)).getD nowLocal

/-- Per-item body of the PhocusWire loop.  A missing a.title anchor makes
title_tag.get raise AttributeError, a missing href makes the string
concatenation raise TypeError; both are caught by the per-item except and
skip the item.  Otherwise the link is the fixed site domain concatenated
with the href, and published_at is the strptime parse of the raw date
token, falling back to the local clock reading on ValueError. -/
def processPhocusItem (strptimeBdY : String → Option DateTime)
    (nowLocal : DateTime) (b : PhocusBlock) : Option Article :=
  match b.titleAnchor with
  | none => none
  | some anchor =>
    match anchor.href with
    | none => none
    | some href =>
      some ⟨"https://www.phocuswire.com" ++ href, anchor.text.trim,
            strftimeNormalized (phocusDate strptimeBdY nowLocal b), "PhocusWire"⟩

/-- Model of get_phocuswire_articles: a failed fetch is caught and yields
the empty list; a successful fetch processes every .list-view .item
block, skipped blocks contributing nothing. -/
def get_phocuswire_articles (fetch : Except FetchErr (List PhocusBlock))
    (strptimeBdY : String → Option DateTime) (nowLocal : DateTime) : List Article :=
  match fetch with
  | .error _ => []
  | .ok blocks => blocks.filterMap (processPhocusItem strptimeBdY nowLocal)

/- ---------- SQLite store ---------- -/

/-- Row of the articles table. -/
structure Row where
  id : Nat
  url : String
  title : String
  published_at : String
  source : String
deriving Repr, DecidableEq

/-- State of the articles table: the rows plus the autoincrement
counter. -/
structure DB where
  table : List Row
  nextId : Nat
deriving Repr, DecidableEq

/-- Model of INSERT OR IGNORE keyed on the UNIQUE url column: when a row
with the same url exists the statement is a no-op with rowcount 0,
otherwise the row is appended with the next id and rowcount is 1. -/
def insertOrIgnore (db : DB) (a : Article) : DB × Nat :=
  if db.table.any (fun r => r.url = a.url) then (db, 0)
  else (⟨db.table ++ [⟨db.nextId, a.url, a.title, a.published_at, a.source⟩],
         db.nextId + 1⟩, 1)

/-- One iteration of the store loop of store_articles_to_db: insert the
article with INSERT OR IGNORE and add its rowcount to the inserted
counter. -/
def storeStep (s : DB × Nat) (a : Article) : DB × Nat :=
  ((insertOrIgnore s.1 a).1, s.2 + (insertOrIgnore s.1 a).2)

/-- Body of the store loop of store_articles_to_db: each article is
inserted with INSERT OR IGNORE and the rowcounts are summed into the
inserted counter. -/
def storeFold (articles : List Article) (s : DB × Nat) : DB × Nat :=
  articles.foldl storeStep s

/-- Model of store_articles_to_db (after a successful connect and CREATE
TABLE IF NOT EXISTS): returns the updated table state and the logged
inserted count. -/
def store_articles_to_db (articles : List Article) (db : DB) : DB × Nat :=
  storeFold articles (db, 0)

/-- Decides whether some stored row carries the given url (the UNIQUE
conflict test of INSERT OR IGNORE). -/
def urlMem (db : DB) (u : String) : Bool :=
  db.table.any (fun r => r.url = u)

/-- Number of stored rows carrying the given url. -/
def urlCount (db : DB) (u : String) : Nat :=
  db.table.countP (fun r => r.url = u)

/-- Empty database state: no rows, autoincrement counter at 1. -/
def emptyDB : DB := ⟨[], 1⟩

/- ---------- CSV export ---------- -/

/-- Content of the export file: whether the header row is present, and
the data rows in order. -/
structure CsvFile where
  hasHeader : Bool
  rows : List Article
deriving Repr, DecidableEq

/-- Model of store_articles_to_csv on a successful write.  The code
checks os.path.isfile before opening, opens with mode "w" (truncating or
creating the file), writes the header only when the file did not already
exist, then writes every record of the current run. -/
def store_articles_to_csv (articles : List Article) (fs : Option CsvFile) :
    Option CsvFile :=
  let file_exists := fs.isSome
  some ⟨!file_exists, articles⟩

/- ---------- Reporter ---------- -/

/-- ORDER BY key of a stored row: datetime(published_at) gives the
chronological key for parseable values; NULL (unparseable) sorts below
every non-NULL value, hence last under DESC. -/
def rowKey (r : Row) : Nat :=
  match parseTimestamp r.published_at with
  | some d => d.key + 1
  | none => 0

/-- Insert a row into a list that is sorted by descending rowKey,
keeping it sorted. -/
def insertRowDesc (r : Row) : List Row → List Row
  | [] => [r]
  | x :: xs => if rowKey x < rowKey r then r :: x :: xs else x :: insertRowDesc r xs

/-- Sort rows by descending rowKey (one realisation of the ORDER BY
result; ties are ordered arbitrarily by SQLite). -/
def sortRowsDesc : List Row → List Row
  | [] => []
  | r :: rs => insertRowDesc r (sortRowsDesc rs)

/-- Model of get_latest_articles: SELECT title, source, published_at,
url FROM articles ORDER BY datetime(published_at) DESC LIMIT 5. -/
def get_latest_articles (db : DB) : List (String × String × String × String) :=
  ((sortRowsDesc db.table).take 5).map (fun r => (r.title, r.source, r.published_at, r.url))

/-- Chronological key of a reported (title, source, published_at, url)
tuple, read off its published_at component the same way the ORDER BY
clause reads it off the row. -/
def reportKey (t : String × String × String × String) : Nat :=
  match parseTimestamp t.2.2.1 with
  | some d => d.key + 1
  | none => 0

/- ---------- Pipeline orchestrator ---------- -/

/-- Failure the Python code does not catch: sqlite3.connect or a
statement outside a try block raising inside a persistence or reporting
stage. -/
inductive PipelineErr where
  | dbStoreFailure
  | dbReportFailure
deriving Repr, DecidableEq

/-- What the reporting branch of run_pipeline logs: either the tabulated
rows or the explicit no-articles message. -/
inductive Report where
  | table (rows : List (String × String × String × String))
  | noArticles
deriving Repr, DecidableEq

/-- Environment of one pipeline run: the two fetch outcomes, the two
external date parsers, the two clock readings, and oracles for failures
the code does not catch (database connect and statement failures in the
store and report stages) or catches wholesale (the CSV write). -/
structure PipelineEnv where
  skiftFetch : Except FetchErr (List SkiftBlock)
  phocusFetch : Except FetchErr (List PhocusBlock)
  fromiso : String → Option DateTime
  strptimeBdY : String → Option DateTime
  nowUtc : DateTime
  nowLocal : DateTime
  dbStoreOk : Bool
  dbReportOk : Bool
  csvWriteOk : Bool

/-- Store stage as run by the pipeline: sqlite3.connect and the CREATE
TABLE statement sit outside any try block, so their failure propagates
out of store_articles_to_db. -/
def storeDbRun (env : PipelineEnv) (articles : List Article) (db : DB) :
    Except PipelineErr (DB × Nat) :=
  if env.dbStoreOk then .ok (store_articles_to_db articles db) else .error .dbStoreFailure

/-- CSV stage as run by the pipeline: the whole body sits in a try block,
so a write failure only logs and leaves the file as it was. -/
def storeCsvRun (env : PipelineEnv) (articles : List Article)
    (fs : Option CsvFile) : Option CsvFile :=
  if env.csvWriteOk then store_articles_to_csv articles fs else fs

/-- Report stage as run by the pipeline: get_latest_articles has no try
block at all, so a database failure propagates out of it. -/
def getLatestRun (env : PipelineEnv) (db : DB) :
    Except PipelineErr (List (String × String × String × String)) :=
  if env.dbReportOk then .ok (get_latest_articles db) else .error .dbReportFailure

/-- State the pipeline run threads through: the database table and the
export file. -/
structure PipelineState where
  db : DB
  csv : Option CsvFile
deriving Repr, DecidableEq

/-- Result of a completed run. -/
structure RunResult where
  finalDb : DB
  finalCsv : Option CsvFile
  report : Report
deriving Repr, DecidableEq

/-- Model of run_pipeline: scrape both sources, concatenate, store to the
database and then to the CSV file, query the 5 latest articles, and log
either the table or the no-articles message.  An uncaught database
failure propagates and aborts the run. -/
def run_pipeline (env : PipelineEnv) (st : PipelineState) :
    Except PipelineErr RunResult := do
  let skift_articles := scrape_skift env.skiftFetch env.fromiso env.nowUtc
  let phocuswire_articles := get_phocuswire_articles env.phocusFetch env.strptimeBdY env.nowLocal
  let all_articles := skift_articles ++ phocuswire_articles
  let (db2, _) ← storeDbRun env all_articles st.db
  let csv2 := storeCsvRun env all_articles st.csv
  let latest ← getLatestRun env db2
  let report := if latest.isEmpty then Report.noArticles else Report.table latest
  return ⟨db2, csv2, report⟩

/- ---------- Helper lemmas: store ---------- -/

theorem storeFold_append (l₁ l₂ : List Article) (s : DB × Nat) :
    storeFold (l₁ ++ l₂) s = storeFold l₂ (storeFold l₁ s) := by
  simp [storeFold, List.foldl_append]

theorem storeFold_cons (a : Article) (l : List Article) (s : DB × Nat) :
    storeFold (a :: l) s = storeFold l (storeStep s a) := by
  simp [storeFold]

theorem insertOrIgnore_of_mem (db : DB) (a : Article)
    (h : urlMem db a.url = true) : insertOrIgnore db a = (db, 0) := by
  unfold urlMem at h
  simp [insertOrIgnore, h]

theorem insertOrIgnore_neg (db : DB) (a : Article)
    (hc : ¬ db.table.any (fun r => r.url = a.url) = true) :
    insertOrIgnore db a
      = (⟨db.table ++ [⟨db.nextId, a.url, a.title, a.published_at, a.source⟩],
          db.nextId + 1⟩, 1) := by
  unfold insertOrIgnore
  rw [if_neg hc]

theorem urlMem_insertOrIgnore_self (db : DB) (a : Article) :
    urlMem (insertOrIgnore db a).1 a.url = true := by
  by_cases hc : db.table.any (fun r => r.url = a.url) = true
  · rw [insertOrIgnore_of_mem db a hc]; exact hc
  · rw [insertOrIgnore_neg db a hc]
    unfold urlMem
    simp [List.any_append]

theorem urlMem_insertOrIgnore_mono (db : DB) (a : Article) (u : String)
    (h : urlMem db u = true) : urlMem (insertOrIgnore db a).1 u = true := by
  by_cases hc : db.table.any (fun r => r.url = a.url) = true
  · rw [insertOrIgnore_of_mem db a hc]; exact h
  · rw [insertOrIgnore_neg db a hc]
    unfold urlMem at h ⊢
    simp [List.any_append, h]

theorem urlMem_storeFold_mono (l : List Article) (s : DB × Nat) (u : String)
    (h : urlMem s.1 u = true) : urlMem (storeFold l s).1 u = true := by
  induction l generalizing s with
  | nil => simpa [storeFold]
  | cons a l ih =>
    rw [storeFold_cons]
    exact ih _ (urlMem_insertOrIgnore_mono _ _ _ h)

theorem urlMem_storeFold_of_elem (l₁ l₂ : List Article) (a : Article) (s : DB × Nat) :
    urlMem (storeFold (l₁ ++ a :: l₂) s).1 a.url = true := by
  rw [storeFold_append, storeFold_cons]
  exact urlMem_storeFold_mono _ _ _ (urlMem_insertOrIgnore_self _ _)

theorem storeFold_skip_dup (l₁ l₂ l₃ : List Article) (a b : Article) (s : DB × Nat)
    (h : a.url = b.url) :
    storeFold (l₁ ++ a :: l₂ ++ b :: l₃) s = storeFold (l₁ ++ a :: l₂ ++ l₃) s := by
  have hmem : urlMem (storeFold (l₁ ++ a :: l₂) s).1 b.url = true :=
    h ▸ urlMem_storeFold_of_elem l₁ l₂ a s
  have hstep : storeStep (storeFold (l₁ ++ a :: l₂) s) b
      = storeFold (l₁ ++ a :: l₂) s := by
    simp [storeStep, insertOrIgnore_of_mem _ _ hmem]
  calc storeFold (l₁ ++ a :: l₂ ++ b :: l₃) s
      = storeFold (b :: l₃) (storeFold (l₁ ++ a :: l₂) s) := by
        rw [← storeFold_append]
    _ = storeFold l₃ (storeStep (storeFold (l₁ ++ a :: l₂) s) b) :=
        storeFold_cons _ _ _
    _ = storeFold l₃ (storeFold (l₁ ++ a :: l₂) s) := by rw [hstep]
    _ = storeFold (l₁ ++ a :: l₂ ++ l₃) s := by rw [← storeFold_append]

theorem urlCount_insertOrIgnore_le (db : DB) (a : Article) (u : String)
    (h : urlCount db u ≤ 1) : urlCount (insertOrIgnore db a).1 u ≤ 1 := by
  by_cases hc : db.table.any (fun r => r.url = a.url) = true
  · rw [insertOrIgnore_of_mem db a hc]; exact h
  · rw [insertOrIgnore_neg db a hc]
    unfold urlCount at h ⊢
    simp only [List.countP_append, List.countP_cons, List.countP_nil]
    by_cases hu : a.url = u
    · have hz : db.table.countP (fun r => decide (r.url = u)) = 0 := by
        rw [List.countP_eq_zero]
        intro r hr
        have hne : r.url ≠ a.url := by
          simp only [List.any_eq_true, decide_eq_true_eq] at hc
          push_neg at hc
          exact hc r hr
        simpa [hu] using hne
      simp [hz, hu]
    · simp only [hu]
      simpa using h

theorem urlCount_storeFold_le (l : List Article) (s : DB × Nat) (u : String)
    (h : urlCount s.1 u ≤ 1) : urlCount (storeFold l s).1 u ≤ 1 := by
  induction l generalizing s with
  | nil => simpa [storeFold]
  | cons a l ih =>
    rw [storeFold_cons]
    exact ih _ (urlCount_insertOrIgnore_le _ _ _ h)

theorem urlCount_eq_one_of_mem (db : DB) (u : String) (hle : urlCount db u ≤ 1)
    (hmem : urlMem db u = true) : urlCount db u = 1 := by
  have hpos : 0 < urlCount db u := by
    unfold urlMem at hmem
    simp only [List.any_eq_true, decide_eq_true_eq] at hmem
    obtain ⟨r, hr, hru⟩ := hmem
    unfold urlCount
    exact List.countP_pos_iff.mpr ⟨r, hr, by simpa using hru⟩
  omega

/- ---------- Claims about the CSV export ---------- -/

/-- C1: the claim states that the export file always contains a header
row, regardless of whether the file existed before the run.  The code
truncates the old content (mode "w") but writes the header only when
os.path.isfile was false, so a run against a pre-existing export file
produces a file with the records and no header row: the claim fails on
the code at this input, while the docstring ("Overwrites existing data")
and the spec both describe full-header overwrite semantics. -/
theorem C1_header_skipped_when_file_exists :
    store_articles_to_csv [⟨"u", "t", "2024-01-01 00:00:00", "Skift"⟩]
        (some ⟨true, []⟩)
      = some ⟨false, [⟨"u", "t", "2024-01-01 00:00:00", "Skift"⟩]⟩ := rfl

/-- C7: the flat-file export is a snapshot, not an append: after two
consecutive runs of store_articles_to_csv the export file holds exactly
the records of the second run, never a union of both runs. -/
theorem C7_csv_snapshot (a₁ a₂ : List Article) (fs : Option CsvFile) :
    ∃ f : CsvFile, store_articles_to_csv a₂ (store_articles_to_csv a₁ fs) = some f ∧
      f.rows = a₂ :=
  ⟨⟨false, a₂⟩, rfl, rfl⟩

/- ---------- Claims about the database store ---------- -/

/-- C5: store writes are idempotent on url.  Starting from any table
with at most one row per url, after store_articles_to_db an insert of a
record whose url is already present leaves the table unchanged (exactly
one row for that url, the duplicate silently skipped, not updated), its
rowcount contribution is zero, and there is a batch whose reported
inserted count differs from the number of records offered. -/
theorem C5_store_writes_idempotent_on_url (db : DB) (arts : List Article) (a : Article)
    (h0 : ∀ u, urlCount db u ≤ 1)
    (hmem : urlMem (store_articles_to_db arts db).1 a.url = true) :
    insertOrIgnore (store_articles_to_db arts db).1 a
        = ((store_articles_to_db arts db).1, 0) ∧
    urlCount (store_articles_to_db arts db).1 a.url = 1 ∧
    (insertOrIgnore (store_articles_to_db arts db).1 a).2 = 0 ∧
    ∃ offered : List Article,
      (store_articles_to_db offered emptyDB).2 ≠ offered.length := by
  have hle : urlCount (store_articles_to_db arts db).1 a.url ≤ 1 :=
    urlCount_storeFold_le _ _ _ (h0 a.url)
  refine ⟨insertOrIgnore_of_mem _ _ hmem, urlCount_eq_one_of_mem _ _ hle hmem, ?_, ?_⟩
  · rw [insertOrIgnore_of_mem _ _ hmem]
  · exact ⟨[⟨"u", "t", "2024-01-01 00:00:00", "Skift"⟩,
            ⟨"u", "t2", "2024-01-02 00:00:00", "Skift"⟩], by decide⟩

/-- C5 witness: idempotence applied at a concrete one-record batch over
the empty database. -/
theorem C5_store_writes_idempotent_on_url_witness :
    insertOrIgnore
        (store_articles_to_db [⟨"u", "t", "2024-01-01 00:00:00", "Skift"⟩] emptyDB).1
        ⟨"u", "t", "2024-01-01 00:00:00", "Skift"⟩
      = ((store_articles_to_db [⟨"u", "t", "2024-01-01 00:00:00", "Skift"⟩] emptyDB).1, 0) :=
  (C5_store_writes_idempotent_on_url emptyDB
    [⟨"u", "t", "2024-01-01 00:00:00", "Skift"⟩]
    ⟨"u", "t", "2024-01-01 00:00:00", "Skift"⟩
    (fun u => by simp [urlCount, emptyDB]) (by decide)).1

/-- C10: deduplication also applies within a single batch: a later
occurrence of an already-seen url is skipped, so the batch stores only
the first occurrence, and any table with at most one row per url still
has at most one row per url after store_articles_to_db. -/
theorem C10_batch_dedup (db : DB) (arts : List Article)
    (h0 : ∀ u, urlCount db u ≤ 1) :
    (∀ u, urlCount (store_articles_to_db arts db).1 u ≤ 1) ∧
    (∀ l₁ l₂ l₃ (a b : Article), arts = l₁ ++ a :: l₂ ++ b :: l₃ → a.url = b.url →
      store_articles_to_db arts db = store_articles_to_db (l₁ ++ a :: l₂ ++ l₃) db) := by
  refine ⟨fun u => urlCount_storeFold_le _ _ _ (h0 u), ?_⟩
  rintro l₁ l₂ l₃ a b rfl h
  exact storeFold_skip_dup l₁ l₂ l₃ a b _ h

/-- C10 witness: a concrete two-record batch with a repeated url stores
exactly what the one-record batch stores, and the repeated url has at
most one row. -/
theorem C10_batch_dedup_witness :
    urlCount (store_articles_to_db
        [⟨"u", "t", "2024-01-01 00:00:00", "Skift"⟩,
         ⟨"u", "t2", "2024-01-02 00:00:00", "PhocusWire"⟩] emptyDB).1 "u" ≤ 1 ∧
    store_articles_to_db
        [⟨"u", "t", "2024-01-01 00:00:00", "Skift"⟩,
         ⟨"u", "t2", "2024-01-02 00:00:00", "PhocusWire"⟩] emptyDB
      = store_articles_to_db [⟨"u", "t", "2024-01-01 00:00:00", "Skift"⟩] emptyDB :=
  ⟨(C10_batch_dedup emptyDB _ (fun u => by simp [urlCount, emptyDB])).1 "u",
   (C10_batch_dedup emptyDB _ (fun u => by simp [urlCount, emptyDB])).2
     [] [] [] _ _ rfl rfl⟩

/- ---------- Helper lemmas: reporter ---------- -/

theorem mem_insertRowDesc (r x : Row) (l : List Row) :
    x ∈ insertRowDesc r l ↔ x = r ∨ x ∈ l := by
  induction l with
  | nil => simp [insertRowDesc]
  | cons y ys ih =>
    by_cases h : rowKey y < rowKey r
    · simp [insertRowDesc, h]
    · simp [insertRowDesc, h, ih]
      tauto

theorem sorted_insertRowDesc (r : Row) (l : List Row)
    (h : l.Sorted (fun x y => rowKey y ≤ rowKey x)) :
    (insertRowDesc r l).Sorted (fun x y => rowKey y ≤ rowKey x) := by
  induction l with
  | nil => simp [insertRowDesc]
  | cons y ys ih =>
    rw [List.sorted_cons] at h
    obtain ⟨hy, hys⟩ := h
    by_cases hlt : rowKey y < rowKey r
    · simp only [insertRowDesc, if_pos hlt]
      rw [List.sorted_cons]
      refine ⟨?_, ?_⟩
      · intro b hb
        rcases List.mem_cons.mp hb with rfl | hb
        · omega
        · exact le_trans (hy b hb) (le_of_lt hlt)
      · rw [List.sorted_cons]; exact ⟨hy, hys⟩
    · simp only [insertRowDesc, if_neg hlt]
      rw [List.sorted_cons]
      refine ⟨?_, ih hys⟩
      intro b hb
      rcases (mem_insertRowDesc r b ys).mp hb with rfl | hb
      · omega
      · exact hy b hb

theorem sorted_sortRowsDesc (l : List Row) :
    (sortRowsDesc l).Sorted (fun x y => rowKey y ≤ rowKey x) := by
  induction l with
  | nil => simp [sortRowsDesc]
  | cons r rs ih => exact sorted_insertRowDesc r _ ih

theorem mem_sortRowsDesc (x : Row) (l : List Row) :
    x ∈ sortRowsDesc l ↔ x ∈ l := by
  induction l with
  | nil => simp [sortRowsDesc]
  | cons r rs ih => simp [sortRowsDesc, mem_insertRowDesc, ih]

/- ---------- Claim about the reporter ---------- -/

/-- C6: the reporter returns at most 5 records, ordered by published_at
descending with the values compared as parsed timestamps (rows whose
published_at does not parse sort last, as SQLite sorts NULL under DESC),
each record carrying (title, source, published_at, url) of a stored row;
and on the three-row example of the spec it returns the rows
most-recent-first. -/
theorem C6_reporter_top5_ordered (db : DB) :
    (get_latest_articles db).length ≤ 5 ∧
    (get_latest_articles db).Sorted (fun t₁ t₂ => reportKey t₂ ≤ reportKey t₁) ∧
    (∀ t ∈ get_latest_articles db, ∃ r ∈ db.table,
      t = (r.title, r.source, r.published_at, r.url)) ∧
    get_latest_articles ⟨[⟨1, "u1", "t1", "2024-01-01 00:00:00", "Skift"⟩,
                          ⟨2, "u2", "t2", "2024-03-05 10:00:00", "Skift"⟩,
                          ⟨3, "u3", "t3", "2023-12-31 23:59:59", "Skift"⟩], 4⟩
      = [("t2", "Skift", "2024-03-05 10:00:00", "u2"),
         ("t1", "Skift", "2024-01-01 00:00:00", "u1"),
         ("t3", "Skift", "2023-12-31 23:59:59", "u3")] := by
  refine ⟨?_, ?_, ?_, by decide⟩
  · unfold get_latest_articles
    rw [List.length_map]
    exact List.length_take_le 5 _
  · unfold get_latest_articles
    unfold List.Sorted
    rw [List.pairwise_map]
    exact List.Pairwise.sublist (List.take_sublist 5 _) (sorted_sortRowsDesc db.table)
  · intro t ht
    unfold get_latest_articles at ht
    obtain ⟨r, hr, rfl⟩ := List.mem_map.mp ht
    have hmem : r ∈ sortRowsDesc db.table :=
      (List.take_sublist 5 _).mem hr
    exact ⟨r, (mem_sortRowsDesc r _).mp hmem, rfl⟩

/-- C6 witness: the reporter contract applied at the concrete three-row
table of the spec example. -/
theorem C6_reporter_top5_ordered_witness :
    (get_latest_articles ⟨[⟨1, "u1", "t1", "2024-01-01 00:00:00", "Skift"⟩,
                           ⟨2, "u2", "t2", "2024-03-05 10:00:00", "Skift"⟩,
                           ⟨3, "u3", "t3", "2023-12-31 23:59:59", "Skift"⟩], 4⟩).length ≤ 5 ∧
    (get_latest_articles ⟨[⟨1, "u1", "t1", "2024-01-01 00:00:00", "Skift"⟩,
                           ⟨2, "u2", "t2", "2024-03-05 10:00:00", "Skift"⟩,
                           ⟨3, "u3", "t3", "2023-12-31 23:59:59", "Skift"⟩], 4⟩).Sorted
      (fun t₁ t₂ => reportKey t₂ ≤ reportKey t₁) :=
  ⟨(C6_reporter_top5_ordered _).1, (C6_reporter_top5_ordered _).2.1⟩

/- ---------- Helper lemmas: extractors ---------- -/

theorem digitChar_mod_isDigit (n : Nat) : (Nat.digitChar (n % 10)).isDigit = true := by
  have h : n % 10 < 10 := Nat.mod_lt _ (by norm_num)
  set k := n % 10 with hk
  interval_cases k <;> rfl

theorem isNormalized_strftime (d : DateTime) :
    isNormalizedTimestamp (strftimeNormalized d) = true := by
  unfold isNormalizedTimestamp strftimeNormalized strftimeChars
  simp [digitChar_mod_isDigit]

theorem processSkiftItem_some (fromiso : String → Option DateTime)
    (nowUtc : DateTime) (b : SkiftBlock) (a : Article)
    (h : processSkiftItem fromiso nowUtc b = some a) :
    ∃ link title, b.linkHref = some link ∧ b.heading = some title ∧
      a = ⟨link, title, strftimeNormalized (skiftDate fromiso nowUtc b), "Skift"⟩ := by
  rcases hl : b.linkHref with _ | link <;> rcases hh : b.heading with _ | title <;>
    rw [processSkiftItem, hl, hh] at h <;> simp at h
  exact ⟨link, title, rfl, rfl, h.symm⟩

theorem processPhocusItem_some (strptimeBdY : String → Option DateTime)
    (nowLocal : DateTime) (b : PhocusBlock) (a : Article)
    (h : processPhocusItem strptimeBdY nowLocal b = some a) :
    ∃ anchor href, b.titleAnchor = some anchor ∧ anchor.href = some href ∧
      a = ⟨"https://www.phocuswire.com" ++ href, anchor.text.trim,
           strftimeNormalized (phocusDate strptimeBdY nowLocal b), "PhocusWire"⟩ := by
  obtain ⟨ta, au⟩ := b
  rcases ta with _ | anchor
  · exact absurd h (by simp [processPhocusItem])
  · obtain ⟨hrefOpt, text⟩ := anchor
    rcases hrefOpt with _ | href
    · exact absurd h (by simp [processPhocusItem])
    · refine ⟨⟨some href, text⟩, href, rfl, rfl, ?_⟩
      have h₂ := h
      simp only [processPhocusItem] at h₂
      injection h₂ with h₂
      exact h₂.symm

/- ---------- Claims about the extractors ---------- -/

/-- C3: every record either extractor emits carries a published_at of
the normalized shape YYYY-MM-DD HH:MM:SS, always an image of the
formatter (never the raw page token, never absent); and when the date is
missing or unparseable the record carries the formatted current time:
the UTC clock in the Skift extractor, the local clock in the PhocusWire
extractor. -/
theorem C3_published_at_always_normalized
    (fromiso strptimeBdY : String → Option DateTime) (nowUtc nowLocal : DateTime)
    (sfetch : Except FetchErr (List SkiftBlock))
    (pfetch : Except FetchErr (List PhocusBlock)) :
    (∀ a ∈ scrape_skift sfetch fromiso nowUtc,
      isNormalizedTimestamp a.published_at = true ∧
      ∃ d, a.published_at = strftimeNormalized d) ∧
    (∀ a ∈ get_phocuswire_articles pfetch strptimeBdY nowLocal,
      isNormalizedTimestamp a.published_at = true ∧
      ∃ d, a.published_at = strftimeNormalized d) ∧
    (∀ b a, processSkiftItem fromiso nowUtc b = some a →
      (b.timeDatetime = none ∨ (∃ s, b.timeDatetime = some s ∧ fromiso s = none)) →
      a.published_at = strftimeNormalized nowUtc) ∧
    (∀ b a, processPhocusItem strptimeBdY nowLocal b = some a →
      strptimeBdY (phocusRawDate b) = none →
      a.published_at = strftimeNormalized nowLocal) := by
  refine ⟨?_, ?_, ?_, ?_⟩
  · intro a ha
    cases sfetch with
    | error e => simp [scrape_skift] at ha
    | ok blocks =>
      obtain ⟨b, hb, hpb⟩ := List.mem_filterMap.mp ha
      obtain ⟨link, title, _, _, rfl⟩ := processSkiftItem_some _ _ _ _ hpb
      exact ⟨isNormalized_strftime _, _, rfl⟩
  · intro a ha
    cases pfetch with
    | error e => simp [get_phocuswire_articles] at ha
    | ok blocks =>
      obtain ⟨b, hb, hpb⟩ := List.mem_filterMap.mp ha
      obtain ⟨anchor, href, _, _, rfl⟩ := processPhocusItem_some _ _ _ _ hpb
      exact ⟨isNormalized_strftime _, _, rfl⟩
  · intro b a hpb hfail
    obtain ⟨link, title, _, _, rfl⟩ := processSkiftItem_some _ _ _ _ hpb
    rcases hfail with hnone | ⟨s, hsome, hparse⟩
    · simp [skiftDate, hnone]
    · simp [skiftDate, hsome, hparse]
  · intro b a hpb hparse
    obtain ⟨anchor, href, _, _, rfl⟩ := processPhocusItem_some _ _ _ _ hpb
    simp [phocusDate, hparse]

/-- C3 witness: a Skift block with no time markup emits a record whose
published_at is the formatted UTC clock reading. -/
theorem C3_published_at_always_normalized_witness :
    (Article.mk "/x" "T"
        (strftimeNormalized (skiftDate (fun _ => none) ⟨2024, 1, 1, 0, 0, 0⟩
          ⟨some "/x", some "T", none⟩)) "Skift").published_at
      = strftimeNormalized ⟨2024, 1, 1, 0, 0, 0⟩ :=
  (C3_published_at_always_normalized (fun _ => none) (fun _ => none)
      ⟨2024, 1, 1, 0, 0, 0⟩ ⟨2024, 1, 2, 0, 0, 0⟩ (.ok []) (.ok [])).2.2.1
    ⟨some "/x", some "T", none⟩ _ rfl (Or.inl rfl)

/-- C4: a fetch-level failure (network error, timeout, non-2xx status)
is caught inside the extractor and yields an empty record list for that
source; the embedding of each extractor is a total function into lists,
reflecting that no input makes it raise past its boundary; and the
pipeline run in which the fetch of one source failed is identical to the run in
which that source contributes no blocks, so the pipeline continues with
the other source. -/
theorem C4_fetch_failure_yields_empty
    (fromiso strptimeBdY : String → Option DateTime) (nowUtc nowLocal : DateTime)
    (e₁ e₂ : FetchErr) (env : PipelineEnv) (st : PipelineState) :
    scrape_skift (.error e₁) fromiso nowUtc = [] ∧
    get_phocuswire_articles (.error e₂) strptimeBdY nowLocal = [] ∧
    run_pipeline { env with skiftFetch := .error e₁ } st
      = run_pipeline { env with skiftFetch := .ok [] } st ∧
    run_pipeline { env with phocusFetch := .error e₂ } st
      = run_pipeline { env with phocusFetch := .ok [] } st :=
  ⟨rfl, rfl, rfl, rfl⟩

/-- C8: an article block missing a required field contributes zero
records and the remaining blocks are still extracted: for Skift a block
with no anchor href or no heading, for PhocusWire a block with no
a.title anchor or an anchor without href. -/
theorem C8_bad_block_contributes_nothing
    (fromiso strptimeBdY : String → Option DateTime) (nowUtc nowLocal : DateTime) :
    (∀ b : SkiftBlock, b.linkHref = none ∨ b.heading = none →
      processSkiftItem fromiso nowUtc b = none) ∧
    (∀ (l₁ l₂ : List SkiftBlock) (b : SkiftBlock),
      b.linkHref = none ∨ b.heading = none →
      scrape_skift (.ok (l₁ ++ b :: l₂)) fromiso nowUtc
        = scrape_skift (.ok l₁) fromiso nowUtc
          ++ scrape_skift (.ok l₂) fromiso nowUtc) ∧
    (∀ b : PhocusBlock,
      b.titleAnchor = none ∨ (∃ anchor, b.titleAnchor = some anchor ∧ anchor.href = none) →
      processPhocusItem strptimeBdY nowLocal b = none) ∧
    (∀ (l₁ l₂ : List PhocusBlock) (b : PhocusBlock),
      b.titleAnchor = none ∨ (∃ anchor, b.titleAnchor = some anchor ∧ anchor.href = none) →
      get_phocuswire_articles (.ok (l₁ ++ b :: l₂)) strptimeBdY nowLocal
        = get_phocuswire_articles (.ok l₁) strptimeBdY nowLocal
          ++ get_phocuswire_articles (.ok l₂) strptimeBdY nowLocal) := by
  have hskift : ∀ b : SkiftBlock, b.linkHref = none ∨ b.heading = none →
      processSkiftItem fromiso nowUtc b = none := by
    intro b hb
    rcases hl : b.linkHref with _ | link <;> rcases hh : b.heading with _ | title <;>
      simp [processSkiftItem, hl, hh]
    rcases hb with hb | hb <;> simp [hl, hh] at hb
  have hphocus : ∀ b : PhocusBlock,
      b.titleAnchor = none ∨ (∃ anchor, b.titleAnchor = some anchor ∧ anchor.href = none) →
      processPhocusItem strptimeBdY nowLocal b = none := by
    intro b hb
    rcases ha : b.titleAnchor with _ | anchor
    · simp [processPhocusItem, ha]
    · rcases hb with hb | ⟨anchor2, ha2, hr2⟩
      · rw [ha] at hb; cases hb
      · rw [ha] at ha2
        cases ha2
        simp [processPhocusItem, ha, hr2]
  refine ⟨hskift, ?_, hphocus, ?_⟩
  · intro l₁ l₂ b hb
    simp [scrape_skift, List.filterMap_append, List.filterMap_cons, hskift b hb]
  · intro l₁ l₂ b hb
    simp [get_phocuswire_articles, List.filterMap_append, List.filterMap_cons,
      hphocus b hb]

/-- C8 witness: a Skift block with no link and a PhocusWire block with
no anchor each contribute zero records. -/
theorem C8_bad_block_contributes_nothing_witness :
    processSkiftItem (fun _ => none) ⟨2024, 1, 1, 0, 0, 0⟩
        ⟨none, some "T", none⟩ = none ∧
    processPhocusItem (fun _ => none) ⟨2024, 1, 1, 0, 0, 0⟩ ⟨none, none⟩ = none :=
  ⟨(C8_bad_block_contributes_nothing (fun _ => none) (fun _ => none)
      ⟨2024, 1, 1, 0, 0, 0⟩ ⟨2024, 1, 1, 0, 0, 0⟩).1 _ (Or.inl rfl),
   (C8_bad_block_contributes_nothing (fun _ => none) (fun _ => none)
      ⟨2024, 1, 1, 0, 0, 0⟩ ⟨2024, 1, 1, 0, 0, 0⟩).2.2.1 _ (Or.inl rfl)⟩

/-- C9: the url of every PhocusWire record is the fixed site string
"https://www.phocuswire.com" concatenated with the href attribute of the
a.title anchor of the block, so relative hrefs are absolutized; and an href
that is already an absolute URL still gets the site string prepended. -/
theorem C9_phocus_url_absolutized (strptimeBdY : String → Option DateTime)
    (nowLocal : DateTime) (blocks : List PhocusBlock) :
    (∀ a ∈ get_phocuswire_articles (.ok blocks) strptimeBdY nowLocal,
      ∃ b ∈ blocks, ∃ anchor href, b.titleAnchor = some anchor ∧
        anchor.href = some href ∧
        a.url = "https://www.phocuswire.com" ++ href) ∧
    (processPhocusItem strptimeBdY nowLocal
        ⟨some ⟨some "https://example.com/story", "T"⟩, none⟩).map Article.url
      = some ("https://www.phocuswire.com" ++ "https://example.com/story") := by
  refine ⟨?_, rfl⟩
  intro a ha
  obtain ⟨b, hb, hpb⟩ := List.mem_filterMap.mp ha
  obtain ⟨anchor, href, hanch, hhref, rfl⟩ := processPhocusItem_some _ _ _ _ hpb
  exact ⟨b, hb, anchor, href, hanch, hhref, rfl⟩

/-- C9 witness: a concrete one-block page: the url of its record is the site
string concatenated with the href of the block. -/
theorem C9_phocus_url_absolutized_witness :
    ∃ b ∈ ([⟨some ⟨some "/news/1", "T"⟩, none⟩] : List PhocusBlock),
      ∃ anchor href, b.titleAnchor = some anchor ∧ anchor.href = some href ∧
        (Article.mk ("https://www.phocuswire.com" ++ "/news/1") ("T".trim)
          (strftimeNormalized (phocusDate (fun _ => none) ⟨2024, 1, 1, 0, 0, 0⟩
            ⟨some ⟨some "/news/1", "T"⟩, none⟩)) "PhocusWire").url
          = "https://www.phocuswire.com" ++ href :=
  (C9_phocus_url_absolutized (fun _ => none) ⟨2024, 1, 1, 0, 0, 0⟩
      [⟨some ⟨some "/news/1", "T"⟩, none⟩]).1 _
    (List.mem_filterMap.mpr ⟨⟨some ⟨some "/news/1", "T"⟩, none⟩,
      List.mem_singleton.mpr rfl, rfl⟩)

/- ---------- Claims about the orchestrator ---------- -/

theorem report_branch_iff (l : List (String × String × String × String)) :
    ((if l.isEmpty then Report.noArticles else Report.table l) = Report.noArticles
      ↔ l = []) := by
  by_cases he : l.isEmpty = true
  · rw [if_pos he]
    simp [List.isEmpty_iff.mp he]
  · rw [if_neg he]
    have hne : l ≠ [] := fun hcon => he (by simp [hcon])
    simp [hne]

/-- C2 counterexample: the claim that no failure within any pipeline
stage is fatal is false on the code.  sqlite3.connect and the CREATE
TABLE statement of store_articles_to_db sit outside every try block, so
when they raise, run_pipeline aborts in the persistence stage: on this
concrete run the result is the propagated store-stage error, and the CSV
write and the reporting stage are never reached. -/
theorem C2_counterexample_db_failure_is_fatal :
    run_pipeline ⟨.ok [], .ok [], fun _ => none, fun _ => none,
        ⟨2024, 1, 1, 0, 0, 0⟩, ⟨2024, 1, 1, 0, 0, 0⟩, false, true, true⟩
      ⟨emptyDB, none⟩
      = .error .dbStoreFailure := rfl

/-- C2 (amended): provided the uncaught database operations of the store
and reporting stages do not raise, no other stage failure is fatal: for
every fetch outcome (including failures), every parser, every clock, and
whether or not the CSV write fails, run_pipeline completes and its
reporting stage logs the no-articles message exactly when the reporter
returns an empty result set. -/
theorem C2_pipeline_contained (env : PipelineEnv) (st : PipelineState)
    (h₁ : env.dbStoreOk = true) (h₂ : env.dbReportOk = true) :
    ∃ res : RunResult, run_pipeline env st = .ok res ∧
      (res.report = Report.noArticles ↔ get_latest_articles res.finalDb = []) := by
  obtain ⟨sf, pf, fi, sp, nu, nl, dso, dro, cw⟩ := env
  dsimp only at h₁ h₂
  subst h₁
  subst h₂
  refine ⟨_, rfl, ?_⟩
  exact report_branch_iff _

/-- C2 witness: a concrete run with both fetches failing and the
database available completes and logs the no-articles message. -/
theorem C2_pipeline_contained_witness :
    ∃ res : RunResult,
      run_pipeline ⟨.error .network, .error .timeout, fun _ => none, fun _ => none,
          ⟨2024, 1, 1, 0, 0, 0⟩, ⟨2024, 1, 1, 0, 0, 0⟩, true, true, false⟩
        ⟨emptyDB, none⟩ = .ok res ∧
      (res.report = Report.noArticles ↔ get_latest_articles res.finalDb = []) :=
  C2_pipeline_contained _ _ rfl rfl

end NewsPipeline
